import Mathlib

/-!
Shallow embedding of `src/services/catarata-api.ts`, the cataract-detection
API client, together with proofs of its specified properties.

Modelling conventions:
* JavaScript numbers are modelled as `ℚ` (only additive/multiplicative and
  formatting behaviour is relied on, never float rounding error).
* A thrown JavaScript value is modelled by an explicit error constructor;
  where only its string conversion matters (template-literal interpolation)
  we carry that string.
* Network I/O is modelled by passing the outcome of each `fetch` (and of the
  local file read) as an explicit argument: the functions of the module are
  deterministic in those outcomes.
-/

/-- The `prediction` field of the TS interface `PredictionResult`,
whose type is the string-literal union `'normal' | 'catarata'`. -/
inductive Prediction where
  | normal
  | catarata
deriving DecidableEq, Repr

/-- The JSON string literal denoting each `Prediction` value, exactly as it
appears in the TS union type `'normal' | 'catarata'`. -/
def Prediction.toJsonString : Prediction → String
  | .normal => "normal"
  | .catarata => "catarata"

/-- Embedding of the TS interface `PredictionResult`
(`src/services/catarata-api.ts`, lines 17–22). -/
structure PredictionResult where
  prediction : Prediction
  confidence : ℚ
  class_index : ℤ
  message : String
deriving DecidableEq, Repr

/-- Embedding of the TS interface `ApiError` (lines 24–27). -/
structure ApiError where
  status : ℕ
  detail : String
deriving DecidableEq, Repr

/-- A JSON value as far as this client inspects one: either a response body
shaped like a `PredictionResult`, or some other object whose `detail` field
is a string when present (`none` models an absent or `null`/non-string
`detail`). -/
inductive JsonVal where
  | predVal (r : PredictionResult)
  | errVal (detail : Option String)
deriving DecidableEq, Repr

/-- The body of an HTTP response, as seen through `response.json()`:
either raw text that fails to parse as JSON, or a parsed JSON value. -/
inductive Body where
  | unparsable (raw : String)
  | parsed (v : JsonVal)
deriving DecidableEq, Repr

/-- An HTTP response: its status code and body. -/
structure HttpResponse where
  status : ℕ
  body : Body
deriving DecidableEq, Repr

/-- Outcome of a `fetch` call: a network-level failure (rejected promise,
carrying its string conversion), or an HTTP response. -/
inductive FetchOutcome where
  | netError (msg : String)
  | response (r : HttpResponse)
deriving DecidableEq, Repr

/-- `Response.ok` of the Fetch API: status in the range 200–299. -/
def responseOk (status : ℕ) : Bool :=
  decide (200 ≤ status) && decide (status < 300)

/-- The generic fallback detail string of line 109. -/
def fallbackDetail : String := "Erro desconhecido na API"

/-- The values `predictFromBase64` can throw: the `ApiError` object literal
of lines 107–110, a body-parse failure escaping `response.json()`, the
encoding `Error` rethrown from `imageUriToBase64`, or a network failure of
`fetch` itself.  The `catch` of lines 115–118 rethrows unchanged, so each
is propagated as constructed. -/
inductive JsError where
  | apiError (e : ApiError)
  | jsonParseError (raw : String)
  | encodingError (msg : String)
  | networkError (msg : String)
  | plainError (msg : String)
deriving DecidableEq, Repr

/-- The JavaScript expression `error.detail || 'Erro desconhecido na API'`
of line 109: the `detail` field when present and truthy (a non-empty
string), the fallback otherwise. -/
def jsDetailOr (v : JsonVal) : String :=
  match v with
  | .errVal (some d) => if d = "" then fallbackDetail else d
  | .errVal none => fallbackDetail
  | .predVal _ => fallbackDetail

/-- Embedding of `predictFromBase64` (lines 91–119), parameterised by the
outcome of the base64 encoding (line 93) and the outcome of the POST
`fetch` (lines 95–103).  On `!response.ok` the body is parsed first
(line 106) and the `ApiError` literal is thrown (lines 107–110); on a
success status the parsed body is returned unchanged (lines 113–114).
The surrounding `catch` logs and rethrows the error unchanged. -/
def predictFromBase64 (encodeResult : Except String String)
    (fetched : FetchOutcome) : Except JsError JsonVal :=
  match encodeResult with
  | .error m => .error (.encodingError m)
  | .ok _b64 =>
    match fetched with
    | .netError m => .error (.networkError m)
    | .response resp =>
      if responseOk resp.status then
        match resp.body with
        | .unparsable raw => .error (.jsonParseError raw)
        | .parsed v => .ok v
      else
        match resp.body with
        | .unparsable raw => .error (.jsonParseError raw)
        | .parsed v => .error (.apiError ⟨resp.status, jsDetailOr v⟩)

/-- Whether a `predictFromBase64` outcome is a thrown `ApiError`. -/
def isApiErrorResult : Except JsError JsonVal → Bool
  | .error (.apiError _) => true
  | _ => false

/-- C10: for some non-2xx response whose body is not valid JSON,
`predictFromBase64` throws the body-parsing failure rather than an
`ApiError`: the thrown value is the parse failure of the raw body, a
constructor that carries neither a status code nor a detail string. -/
theorem predictFromBase64_non2xx_parse_failure :
    predictFromBase64 (.ok "imgdata")
        (.response ⟨404, .unparsable "Not Found (HTML page)"⟩)
      = .error (.jsonParseError "Not Found (HTML page)")
    ∧ isApiErrorResult (predictFromBase64 (.ok "imgdata")
        (.response ⟨404, .unparsable "Not Found (HTML page)"⟩)) = false := by
  constructor <;> rfl

/-- C1 (counterexample): the claim says every non-success response makes
`predictFromBase64` fail with an `ApiError` carrying the status and a
detail string; but for a 500 response whose body is not valid JSON the
thrown value is the body-parse failure, not an `ApiError`. -/
theorem predictFromBase64_non2xx_unparsable_counterexample :
    predictFromBase64 (.ok "imgdata")
        (.response ⟨500, .unparsable "<html>Internal Server Error</html>"⟩)
      = .error (.jsonParseError "<html>Internal Server Error</html>")
    ∧ isApiErrorResult (predictFromBase64 (.ok "imgdata")
        (.response ⟨500, .unparsable "<html>Internal Server Error</html>"⟩)) = false := by
  constructor <;> rfl

/-- C1 (amended): for every non-success HTTP response whose body parses as
JSON, `predictFromBase64` fails with an `ApiError` whose `status` equals
the response status and whose `detail` is the server-provided detail text
when present and non-empty, and the fallback string otherwise. -/
theorem predictFromBase64_apiError_on_json_error_body
    (b64 : String) (st : ℕ) (v : JsonVal) (h : responseOk st = false) :
    predictFromBase64 (.ok b64) (.response ⟨st, .parsed v⟩)
      = .error (.apiError ⟨st,
          match v with
          | .errVal (some d) => if d = "" then "Erro desconhecido na API" else d
          | _ => "Erro desconhecido na API"⟩) := by
  simp only [predictFromBase64, h, Bool.false_eq_true, if_false]
  congr 1
  cases v with
  | predVal r => rfl
  | errVal d => cases d <;> rfl

/-- Witness for C1: a 404 with body `{detail: "Not found"}` yields exactly
`ApiError { status := 404, detail := "Not found" }`. -/
theorem predictFromBase64_apiError_witness :
    predictFromBase64 (.ok "img") (.response ⟨404, .parsed (.errVal (some "Not found"))⟩)
      = .error (.apiError ⟨404, "Not found"⟩) := by
  have h := predictFromBase64_apiError_on_json_error_body "img" 404
    (.errVal (some "Not found")) (by decide)
  simpa using h

/-- C5: for every base64 payload whose POST receives a success-status
response whose body parses as a `PredictionResult`, `predictFromBase64`
returns that parsed value unchanged, no field modified. -/
theorem predictFromBase64_success_roundtrip
    (b64 : String) (st : ℕ) (r : PredictionResult)
    (h1 : 200 ≤ st) (h2 : st < 300) :
    predictFromBase64 (.ok b64) (.response ⟨st, .parsed (.predVal r)⟩)
      = .ok (.predVal r) := by
  have hok : responseOk st = true := by
    unfold responseOk
    simp [h1, h2]
  simp [predictFromBase64, hok]

/-- Witness for C5: a 200 response carrying a concrete `PredictionResult`
is returned unchanged. -/
theorem predictFromBase64_success_roundtrip_witness :
    predictFromBase64 (.ok "img")
        (.response ⟨200, .parsed (.predVal ⟨.catarata, 87/100, 1, "ok"⟩)⟩)
      = .ok (.predVal ⟨.catarata, 87/100, 1, "ok"⟩) :=
  predictFromBase64_success_roundtrip "img" 200 ⟨.catarata, 87/100, 1, "ok"⟩
    (by decide) (by decide)

/-- Outcome of the health-check `fetch`: a network failure (carrying its
string form) or a response with some status code. -/
inductive HealthFetch where
  | netError (msg : String)
  | response (status : ℕ)
deriving DecidableEq, Repr

/-- Embedding of `checkApiHealth` (lines 124–134): returns `response.ok`
on a response; catches any network failure, logs it, and returns `false`. -/
def checkApiHealth : HealthFetch → Bool
  | .netError _ => false
  | .response st => responseOk st

/-- C4: `checkApiHealth` is a total `Bool`-valued function of the fetch
outcome (it never throws): it returns `true` exactly when the response
status lies in the success range 200–299, and returns `false` for every
network-level failure. -/
theorem checkApiHealth_boolean_signal :
    (∀ st : ℕ, (checkApiHealth (.response st) = true ↔ 200 ≤ st ∧ st < 300))
    ∧ (∀ msg : String, checkApiHealth (.netError msg) = false) := by
  constructor
  · intro st
    simp [checkApiHealth, responseOk]
  · intro msg
    rfl

/-- Trace of one run of the loop in `predictWithRetry`: the final outcome
(returned value or the error finally thrown), the number of calls made to
`predictFromBase64`, and the backoff delays awaited, in order (the element
of index `i` is the delay taken before attempt `i + 2`). -/
structure RetryTrace where
  result : Except JsError JsonVal
  calls : ℕ
  delays : List ℕ
deriving Repr

/-- Message of the fallback `Error` of line 164, thrown only if the loop
body never ran (`maxRetries = 0`, when `lastError` is still `undefined`). -/
def retryFailMsg : String := "Falha ao enviar para análise após múltiplas tentativas"

/-- The loop of `predictWithRetry` (lines 145–162), as structural recursion
on the number of remaining iterations (`fuel`, which equals
`maxRetries + 1 - attempt` throughout a run): a successful call returns at
once; a failed call records the error as `lastError` and, when
`attempt < maxRetries`, awaits `1000 * 2 ^ (attempt - 1)` ms before the
next attempt; when the loop ends, the last error (or the fallback `Error`
of line 164) is thrown. -/
def retryGo (outcomes : ℕ → Except JsError JsonVal) (maxRetries : ℕ) :
    ℕ → ℕ → Option JsError → ℕ → List ℕ → RetryTrace
  | 0, _attempt, lastError, calls, delays =>
      ⟨.error (lastError.getD (.plainError retryFailMsg)), calls, delays⟩
  | fuel + 1, attempt, _lastError, calls, delays =>
      match outcomes attempt with
      | .ok v => ⟨.ok v, calls + 1, delays⟩
      | .error e =>
          retryGo outcomes maxRetries fuel (attempt + 1) (some e) (calls + 1)
            (if attempt < maxRetries then delays ++ [1000 * 2 ^ (attempt - 1)] else delays)

/-- A full run of `predictWithRetry` (lines 139–165), with the outcome of
the `attempt`-th call to `predictFromBase64` given by `outcomes attempt`:
the loop starts at `attempt = 1` and runs while `attempt ≤ maxRetries`. -/
def retryRun (outcomes : ℕ → Except JsError JsonVal) (maxRetries : ℕ) : RetryTrace :=
  retryGo outcomes maxRetries maxRetries 1 none 0 []

/-- The value returned (or error thrown) by `predictWithRetry`. -/
def predictWithRetry (outcomes : ℕ → Except JsError JsonVal) (maxRetries : ℕ) :
    Except JsError JsonVal :=
  (retryRun outcomes maxRetries).result

/-- The default of the `maxRetries` parameter (line 141). -/
def defaultMaxRetries : ℕ := 3

/-- Loop invariant: if attempt `k` is the first one (at or after the
current attempt and within fuel) to succeed, the loop returns its value
and makes exactly the calls up to `k`. -/
theorem retryGo_first_success (outcomes : ℕ → Except JsError JsonVal)
    (maxRetries : ℕ) (v : JsonVal) :
    ∀ fuel attempt l c d k, attempt ≤ k → k < attempt + fuel →
      outcomes k = .ok v →
      (∀ j, attempt ≤ j → j < k → ∃ e, outcomes j = .error e) →
      (retryGo outcomes maxRetries fuel attempt l c d).result = .ok v
        ∧ (retryGo outcomes maxRetries fuel attempt l c d).calls = c + (k + 1 - attempt) := by
  intro fuel
  induction fuel with
  | zero =>
    intro attempt l c d k h1 h2 _ _
    omega
  | succ f ih =>
    intro attempt l c d k h1 h2 hok hfail
    by_cases hk : attempt = k
    · subst hk
      refine ⟨by simp [retryGo, hok], ?_⟩
      simp only [retryGo, hok]
      omega
    · have hlt : attempt < k := lt_of_le_of_ne h1 hk
      obtain ⟨e, he⟩ := hfail attempt le_rfl hlt
      have step : retryGo outcomes maxRetries (f + 1) attempt l c d
          = retryGo outcomes maxRetries f (attempt + 1) (some e) (c + 1)
              (if attempt < maxRetries then d ++ [1000 * 2 ^ (attempt - 1)] else d) := by
        simp [retryGo, he]
      rw [step]
      have h := ih (attempt + 1) (some e) (c + 1)
        (if attempt < maxRetries then d ++ [1000 * 2 ^ (attempt - 1)] else d) k
        (by omega) (by omega) hok (fun j hj1 hj2 => hfail j (by omega) hj2)
      refine ⟨h.1, ?_⟩
      rw [h.2]
      omega

/-- Loop invariant: if every attempt from the current one through
`maxRetries` fails, the loop ends by throwing the error of attempt
`maxRetries`. -/
theorem retryGo_all_fail (outcomes : ℕ → Except JsError JsonVal) (maxRetries : ℕ) :
    ∀ fuel attempt l c d, attempt + fuel = maxRetries + 1 → attempt ≤ maxRetries →
      (∀ j, attempt ≤ j → j ≤ maxRetries → ∃ e, outcomes j = .error e) →
      ∃ e, outcomes maxRetries = .error e
        ∧ (retryGo outcomes maxRetries fuel attempt l c d).result = .error e := by
  intro fuel
  induction fuel with
  | zero =>
    intro attempt l c d h1 h2 _
    omega
  | succ f ih =>
    intro attempt l c d h1 h2 hfail
    obtain ⟨e, he⟩ := hfail attempt le_rfl h2
    have step : retryGo outcomes maxRetries (f + 1) attempt l c d
        = retryGo outcomes maxRetries f (attempt + 1) (some e) (c + 1)
            (if attempt < maxRetries then d ++ [1000 * 2 ^ (attempt - 1)] else d) := by
      simp [retryGo, he]
    rw [step]
    by_cases hend : attempt = maxRetries
    · have hf0 : f = 0 := by omega
      subst hf0
      refine ⟨e, ?_, ?_⟩
      · rw [← hend]; exact he
      · simp [retryGo]
    · exact ih (attempt + 1) (some e) (c + 1) _ (by omega) (by omega)
        (fun j hj1 hj2 => hfail j (by omega) hj2)

/-- Loop invariant for call counts and delays: starting from attempt
`attempt` with `attempt - 1` calls made and the delays of the first
`attempt - 1` failed attempts recorded, the loop makes at most
`maxRetries` calls in total and its delay list is exactly
`1000 * 2 ^ i` for `i` below `calls - 1`. -/
theorem retryGo_calls_delays (outcomes : ℕ → Except JsError JsonVal) (maxRetries : ℕ) :
    ∀ fuel attempt l c d, attempt + fuel = maxRetries + 1 → 1 ≤ attempt →
      c = attempt - 1 →
      d = (List.range (min (attempt - 1) (maxRetries - 1))).map (fun i => 1000 * 2 ^ i) →
      (retryGo outcomes maxRetries fuel attempt l c d).calls ≤ maxRetries
        ∧ (retryGo outcomes maxRetries fuel attempt l c d).delays
            = (List.range ((retryGo outcomes maxRetries fuel attempt l c d).calls - 1)).map
                (fun i => 1000 * 2 ^ i) := by
  intro fuel
  induction fuel with
  | zero =>
    intro attempt l c d h1 h2 hc hd
    subst hc
    subst hd
    simp only [retryGo]
    refine ⟨by omega, ?_⟩
    have hm : min (attempt - 1) (maxRetries - 1) = attempt - 1 - 1 := by omega
    rw [hm]
  | succ f ih =>
    intro attempt l c d h1 h2 hc hd
    cases hout : outcomes attempt with
    | ok v =>
      have step : retryGo outcomes maxRetries (f + 1) attempt l c d
          = ⟨.ok v, c + 1, d⟩ := by
        simp [retryGo, hout]
      rw [step]
      subst hc
      subst hd
      dsimp only
      refine ⟨by omega, ?_⟩
      have hm : min (attempt - 1) (maxRetries - 1) = attempt - 1 + 1 - 1 := by omega
      rw [hm]
    | error e =>
      have step : retryGo outcomes maxRetries (f + 1) attempt l c d
          = retryGo outcomes maxRetries f (attempt + 1) (some e) (c + 1)
              (if attempt < maxRetries then d ++ [1000 * 2 ^ (attempt - 1)] else d) := by
        simp [retryGo, hout]
      rw [step]
      refine ih (attempt + 1) (some e) (c + 1) _ (by omega) (by omega) (by omega) ?_
      by_cases hlt : attempt < maxRetries
      · rw [if_pos hlt]
        subst hd
        have hm1 : min (attempt - 1) (maxRetries - 1) = attempt - 1 := by omega
        have hm2 : min (attempt + 1 - 1) (maxRetries - 1) = attempt - 1 + 1 := by omega
        rw [hm1, hm2, List.range_succ, List.map_append]
        have harg : attempt - 1 + 0 = attempt - 1 := by omega
        simp
      · rw [if_neg hlt]
        subst hd
        have hm : min (attempt - 1) (maxRetries - 1)
            = min (attempt + 1 - 1) (maxRetries - 1) := by omega
        rw [hm]

/-- C2: for every sequence of attempt outcomes and every `maxRetries ≥ 1`,
`predictWithRetry` returns the value of the first successful attempt,
making no call beyond it, and when every attempt fails it throws the
error observed on the last attempt (`maxRetries`). -/
theorem predictWithRetry_first_success_last_error
    (outcomes : ℕ → Except JsError JsonVal) (maxRetries : ℕ) (hmax : 1 ≤ maxRetries) :
    (∀ k v, 1 ≤ k → k ≤ maxRetries → outcomes k = .ok v →
        (∀ j, 1 ≤ j → j < k → ∃ e, outcomes j = .error e) →
        predictWithRetry outcomes maxRetries = .ok v
          ∧ (retryRun outcomes maxRetries).calls = k)
    ∧ ((∀ j, 1 ≤ j → j ≤ maxRetries → ∃ e, outcomes j = .error e) →
        ∃ e, outcomes maxRetries = .error e
          ∧ predictWithRetry outcomes maxRetries = .error e) := by
  constructor
  · intro k v hk1 hk2 hok hfail
    have h := retryGo_first_success outcomes maxRetries v maxRetries 1 none 0 [] k
      hk1 (by omega) hok (fun j hj1 hj2 => hfail j hj1 hj2)
    refine ⟨h.1, ?_⟩
    rw [show (retryRun outcomes maxRetries).calls
        = (retryGo outcomes maxRetries maxRetries 1 none 0 []).calls from rfl, h.2]
    omega
  · intro hfail
    exact retryGo_all_fail outcomes maxRetries maxRetries 1 none 0 [] (by omega) hmax
      (fun j hj1 hj2 => hfail j hj1 hj2)

/-- A sample `PredictionResult`, used to witness the retry theorems. -/
def sampleResult : PredictionResult := ⟨.normal, 9/10, 0, "Sem catarata"⟩

/-- A sample outcome sequence: the first attempt fails with a network
error, every later attempt succeeds. -/
def sampleOutcomes : ℕ → Except JsError JsonVal :=
  fun j => if j ≤ 1 then .error (.networkError "ECONNRESET") else .ok (.predVal sampleResult)

/-- Witness for C2: with three allowed attempts, a failure then a success
makes `predictWithRetry` return the success of attempt 2 after exactly two
calls. -/
theorem predictWithRetry_first_success_last_error_witness :
    predictWithRetry sampleOutcomes 3 = .ok (.predVal sampleResult)
      ∧ (retryRun sampleOutcomes 3).calls = 2 :=
  (predictWithRetry_first_success_last_error sampleOutcomes 3 (by decide)).1 2
    (.predVal sampleResult) (by decide) (by decide) (by rfl)
    (fun j hj1 hj2 => ⟨.networkError "ECONNRESET", by
      have hj : j = 1 := by omega
      subst hj
      rfl⟩)

/-- C3: for every run of `predictWithRetry` the number of calls to
`predictFromBase64` never exceeds `maxRetries` (whose default is 3), and
the delay list is exactly `1000 * 2 ^ i` at index `i` — that is, the delay
taken before attempt `N = i + 2` is `1000 * 2 ^ (N - 2)` ms — with length
`calls - 1`, so no delay follows the final attempt. -/
theorem predictWithRetry_bounded_backoff
    (outcomes : ℕ → Except JsError JsonVal) (maxRetries : ℕ) :
    (retryRun outcomes maxRetries).calls ≤ maxRetries
    ∧ (retryRun outcomes maxRetries).delays
        = (List.range ((retryRun outcomes maxRetries).calls - 1)).map
            (fun i => 1000 * 2 ^ i)
    ∧ defaultMaxRetries = 3 := by
  have h := retryGo_calls_delays outcomes maxRetries maxRetries 1 none 0 []
    (by omega) (by omega) (by omega) (by simp)
  exact ⟨h.1, h.2, rfl⟩

/-- Concatenation of strings is associative. -/
theorem string_append_assoc (a b c : String) : (a ++ b) ++ c = a ++ (b ++ c) := by
  apply String.ext
  simp [String.data_append]

/-- The empty string is a right identity of concatenation. -/
theorem string_append_empty (s : String) : s ++ "" = s := by
  apply String.ext
  simp [String.data_append]

/-- The string `needle` occurs contiguously inside `hay`. -/
def strContains (needle hay : String) : Prop :=
  ∃ p q, hay = p ++ (needle ++ q)

/-- Digits of a natural number of tenths, printed with exactly one decimal
place: `907` becomes `"90.7"`. -/
def toFixed1Nat (n : ℕ) : String := toString (n / 10) ++ "." ++ toString (n % 10)

/-- Embedding of JS `Number.prototype.toFixed(1)` over `ℚ`: round to the
nearest tenth (ties toward the larger value) and print with exactly one
decimal digit; a negative value is the sign followed by the formatted
absolute value. -/
def toFixed1 (q : ℚ) : String :=
  if q < 0 then "-" ++ toFixed1Nat (round (-q * 10)).toNat
  else toFixed1Nat (round (q * 10)).toNat

/-- Embedding of `getPredictionMessage` (lines 170–178): formats
`confidence * 100` with one decimal place and maps the prediction to a
hardcoded Portuguese message.  The source function takes no translation
function. -/
def getPredictionMessage (p : PredictionResult) : String :=
  let confidence := toFixed1 (p.confidence * 100)
  match p.prediction with
  | .normal => "✅ Nenhum sinal de catarata detectado\n" ++ confidence ++ "% de confiança"
  | .catarata => "⚠️ Possível sinal de catarata detectado\nConfidência: " ++ confidence ++ "%"

/-- Embedding of `getRecommendation` (lines 183–194): with a translation
function, the translation of the key for the prediction; without one, the
hardcoded Portuguese fallback. -/
def getRecommendation (p : PredictionResult) (t : Option (String → String)) : String :=
  match t with
  | some tf =>
    match p.prediction with
    | .normal => tf "analise_recomendacao_normal"
    | .catarata => tf "analise_recomendacao_urgente"
  | none =>
    match p.prediction with
    | .normal => "Continue monitorando regularmente seus olhos com exames periódicos."
    | .catarata => "Recomendamos que você consulte um oftalmologista para uma avaliação mais detalhada."

/-- A call of `getPredictionMessage` with an extra translator argument, as
JavaScript permits at runtime: the source function declares no translator
parameter (line 170), so the extra argument is ignored. -/
def getPredictionMessageWithTranslator (p : PredictionResult)
    (_t : Option (String → String)) : String :=
  getPredictionMessage p

/-- A `PredictionResult` value allowed by the TS interface whose enum
spelling is `catarata` and whose confidence exceeds 1. -/
def oddResult : PredictionResult := ⟨.catarata, 2, 1, "Catarata detectada"⟩

/-- C6 (counterexample): the claim names the enum values `normal` and
`cataract`, but the interface (line 18) spells the positive class
`catarata`; moreover nothing in the client restricts `confidence` to
`[0,1]`: a 200 response whose body has `prediction = "catarata"` and
`confidence = 2` is consumed unchanged. -/
theorem predictionResult_enum_counterexample :
    predictFromBase64 (.ok "img") (.response ⟨200, .parsed (.predVal oddResult)⟩)
        = .ok (.predVal oddResult)
      ∧ oddResult.prediction.toJsonString = "catarata"
      ∧ oddResult.prediction.toJsonString ≠ "cataract"
      ∧ ¬ oddResult.confidence ≤ 1 := by
  refine ⟨rfl, rfl, by decide, by decide⟩

/-- C6 (amended): every `PredictionResult` has a prediction that is one of
the enum values `normal` or `catarata` (the code's spelling), an integer
`class_index` and a string `message` by the interface type; the range of
`confidence` is not validated by the client. -/
theorem predictionResult_enum_values (p : PredictionResult) :
    p.prediction.toJsonString = "normal" ∨ p.prediction.toJsonString = "catarata" := by
  cases h : p.prediction
  · left; rfl
  · right; rfl

/-- C7 (counterexample): the claim says both presentation helpers accept
an optional injected translation function and fall back to Portuguese only
when none is supplied; but injecting a translator changes
`getRecommendation` while it cannot change `getPredictionMessage`, whose
source signature (line 170) has no translator parameter. -/
theorem presentationHelpers_translator_counterexample :
    getPredictionMessageWithTranslator sampleResult (some (fun _ => "TRADUZIDO"))
        = getPredictionMessageWithTranslator sampleResult none
      ∧ getRecommendation sampleResult (some (fun _ => "TRADUZIDO")) = "TRADUZIDO"
      ∧ getRecommendation sampleResult none ≠ "TRADUZIDO" := by
  refine ⟨rfl, rfl, by decide⟩

/-- C7 (amended): both helpers are pure functions yielding a string;
`getRecommendation` accepts an optional injected translation function,
returning the translated key for the prediction and falling back to
hardcoded Portuguese text when no translator is supplied;
`getPredictionMessage` takes only the `PredictionResult` and its result
never depends on a translator. -/
theorem presentationHelpers_behavior (p : PredictionResult) (t : String → String) :
    (getRecommendation p (some t) = t "analise_recomendacao_normal"
        ∨ getRecommendation p (some t) = t "analise_recomendacao_urgente")
      ∧ (getRecommendation p none
            = "Continue monitorando regularmente seus olhos com exames periódicos."
          ∨ getRecommendation p none
            = "Recomendamos que você consulte um oftalmologista para uma avaliação mais detalhada.")
      ∧ ∀ t2 : Option (String → String),
          getPredictionMessageWithTranslator p t2 = getPredictionMessage p := by
  obtain ⟨pr, conf, ci, msg⟩ := p
  cases pr with
  | normal => exact ⟨Or.inl rfl, Or.inl rfl, fun _ => rfl⟩
  | catarata => exact ⟨Or.inr rfl, Or.inr rfl, fun _ => rfl⟩

/-- C8: for every `PredictionResult`, the message of `getPredictionMessage`
contains the confidence times 100 formatted with exactly one decimal
place, immediately followed by a percent sign. -/
theorem getPredictionMessage_confidence_format (p : PredictionResult) :
    strContains (toFixed1 (p.confidence * 100) ++ "%") (getPredictionMessage p) := by
  obtain ⟨pr, conf, ci, msg⟩ := p
  cases pr with
  | normal =>
      have hx : ("%" ++ " de confiança" : String) = "% de confiança" := rfl
      refine ⟨"✅ Nenhum sinal de catarata detectado\n", " de confiança", ?_⟩
      show "✅ Nenhum sinal de catarata detectado\n" ++ toFixed1 (conf * 100)
          ++ "% de confiança" = _
      rw [← hx]
      simp only [string_append_assoc]
  | catarata =>
      refine ⟨"⚠️ Possível sinal de catarata detectado\nConfidência: ", "", ?_⟩
      show "⚠️ Possível sinal de catarata detectado\nConfidência: "
          ++ toFixed1 (conf * 100) ++ "%" = _
      rw [string_append_empty]
      simp only [string_append_assoc]

/-- The platform discriminator `Platform.OS` of react-native, as consulted
at line 36. -/
inductive ClientPlatform where
  | web
  | native
deriving DecidableEq, Repr

/-- The JS string conversion of an `Error` object with message `msg`, as
produced by template-literal interpolation. -/
def jsErrorString (msg : String) : String := "Error: " ++ msg

/-- The wrap message of line 46 (without the interpolated cause). -/
def nativeWrapMsg : String := "Erro ao converter imagem para base64: "

/-- The wrap message of line 84 (without the interpolated cause). -/
def webWrapMsg : String := "Erro ao converter imagem web para base64: "

/-- The reading phase of `imageUriToBase64Web` (lines 53–86): the `fetch`
of the URI (or of the blob/data URI) may fail; otherwise the `FileReader`
either errors or produces a data URL.  Both the `blob:`/`data:` branch and
the plain-URL branch of the source run this same sequence.  A failure
carries the JS string conversion of the failing value. -/
inductive WebRead where
  | fetchFail (cause : String)
  | readerFail (cause : String)
  | readerOk (dataUrl : String)
deriving DecidableEq, Repr

/-- The `split(',')[1]` of lines 63 and 76: the text between the first and
second comma of the data URL.  (JS yields `undefined` when there is no
comma; `readAsDataURL` always produces one, and no claim depends on that
case, modelled here as the empty string.) -/
def webExtractBase64 (dataUrl : String) : String :=
  (dataUrl.splitOn ",").getD 1 ""

/-- Embedding of `imageUriToBase64Web` (lines 53–86).  A `fetch` failure is
caught by lines 83–85 and rethrown as an `Error` wrapping its cause; a
`FileReader` failure rejects the promise that line 60/73 already returned
out of the `try` block, so it escapes this function unwrapped; a read
success resolves with the base64 payload of the data URL.  Errors are
carried as their JS string conversions. -/
def imageUriToBase64Web : WebRead → Except String String
  | .fetchFail cause => .error (jsErrorString (webWrapMsg ++ cause))
  | .readerFail cause => .error cause
  | .readerOk dataUrl => .ok (webExtractBase64 dataUrl)

/-- Outcome of the native `FileSystem.readAsStringAsync` read of
lines 41–43: the base64 text of the file, or a failure carrying the JS
string conversion of the thrown value. -/
inductive NativeRead where
  | fileOk (b64 : String)
  | fileFail (cause : String)
deriving DecidableEq, Repr

/-- Embedding of `imageUriToBase64` (lines 33–48): on web it awaits
`imageUriToBase64Web` (line 37), on native it reads the file with
`expo-file-system` (lines 41–43); any failure is caught at line 45 and
rethrown as an `Error` whose message interpolates the failing value
(line 46). -/
def imageUriToBase64 : ClientPlatform → WebRead → NativeRead → Except String String
  | .web, w, _ =>
    match imageUriToBase64Web w with
    | .ok b => .ok b
    | .error s => .error (jsErrorString (nativeWrapMsg ++ s))
  | .native, _, n =>
    match n with
    | .fileOk b => .ok b
    | .fileFail cause => .error (jsErrorString (nativeWrapMsg ++ cause))

/-- C9: for every image read whose underlying native read, web fetch, or
web file-read fails, `imageUriToBase64` fails with a wrapping error whose
message carries the string form of the underlying cause inside it. -/
theorem imageUriToBase64_wraps_cause (cause : String) (w : WebRead) (d : String) :
    (∃ s, imageUriToBase64 .native w (.fileFail cause) = .error s ∧ strContains cause s)
    ∧ (∃ s, imageUriToBase64 .web (.fetchFail cause) (.fileOk d) = .error s
        ∧ strContains cause s)
    ∧ (∃ s, imageUriToBase64 .web (.readerFail cause) (.fileOk d) = .error s
        ∧ strContains cause s) := by
  refine ⟨⟨_, rfl, "Error: " ++ nativeWrapMsg, "", ?_⟩,
    ⟨_, rfl, "Error: " ++ (nativeWrapMsg ++ ("Error: " ++ webWrapMsg)), "", ?_⟩,
    ⟨_, rfl, "Error: " ++ nativeWrapMsg, "", ?_⟩⟩ <;>
  simp only [jsErrorString, string_append_assoc, string_append_empty]
